import Mathlib

/-!
# Verification of `cdn/serve.py`

A shallow embedding of the security-relevant core of the CDN server:
session-token issuance/verification (HMAC-SHA256, truncated hex signatures),
the webhook signature check and redeploy sequencing, path normalization and
sandboxed file resolution, and the route dispatch with its auth gate.

Bytes are modelled as `Nat` values `< 256` in `List Nat`; machine words are
`Nat` reduced `% 2^32`.  The filesystem and the subprocess layer are external
collaborators, modelled as explicit parameters.
-/

set_option maxRecDepth 100000

namespace Serve

/-! ## SHA-256 (FIPS 180-4), over byte lists -/

/-- 2^32, the word modulus. -/
def w32 : Nat := 4294967296

/-- Right rotation of a 32-bit word. -/
def rotr (n x : Nat) : Nat := ((x >>> n) ||| (x <<< (32 - n))) % w32

/-- The 64 SHA-256 round constants (decimal). -/
def K256 : List Nat :=
  [1116352408, 1899447441, 3049323471, 3921009573, 961987163, 1508970993,
   2453635748, 2870763221, 3624381080, 310598401, 607225278, 1426881987,
   1925078388, 2162078206, 2614888103, 3248222580, 3835390401, 4022224774,
   264347078, 604807628, 770255983, 1249150122, 1555081692, 1996064986,
   2554220882, 2821834349, 2952996808, 3210313671, 3336571891, 3584528711,
   113926993, 338241895, 666307205, 773529912, 1294757372, 1396182291,
   1695183700, 1986661051, 2177026350, 2456956037, 2730485921, 2820302411,
   3259730800, 3345764771, 3516065817, 3600352804, 4094571909, 275423344,
   430227734, 506948616, 659060556, 883997877, 958139571, 1322822218,
   1537002063, 1747873779, 1955562222, 2024104815, 2227730452, 2361852424,
   2428436474, 2756734187, 3204031479, 3329325298]

/-- Big-endian byte encoding: `n` bytes of `v`. -/
def beBytes : Nat → Nat → List Nat
  | 0, _ => []
  | m + 1, v => beBytes m (v >>> 8) ++ [v % 256]

/-- Number of zero padding bytes for a message of `len` bytes. -/
def padZeros (len : Nat) : Nat := (119 - len % 64) % 64

/-- SHA-256 message padding: `0x80`, zeros, then the 64-bit bit length. -/
def padMsg (msg : List Nat) : List Nat :=
  msg ++ [0x80] ++ List.replicate (padZeros msg.length) 0 ++ beBytes 8 (msg.length * 8)

/-- Split into 64-byte blocks (structural recursion on a fuel bound). -/
def chunksAux : Nat → List Nat → List (List Nat)
  | _, [] => []
  | 0, _ :: _ => []
  | fuel + 1, l@(_ :: _) => l.take 64 :: chunksAux fuel (l.drop 64)

/-- Split into 64-byte blocks. -/
def chunks64 (l : List Nat) : List (List Nat) := chunksAux l.length l

/-- Big-endian 32-bit words from bytes. -/
def wordsOf : List Nat → List Nat
  | b0 :: b1 :: b2 :: b3 :: rest =>
      (b0 * 16777216 + b1 * 65536 + b2 * 256 + b3) :: wordsOf rest
  | _ => []

def smallSigma0 (x : Nat) : Nat := rotr 7 x ^^^ rotr 18 x ^^^ (x >>> 3)

def smallSigma1 (x : Nat) : Nat := rotr 17 x ^^^ rotr 19 x ^^^ (x >>> 10)

def bigSigma0 (x : Nat) : Nat := rotr 2 x ^^^ rotr 13 x ^^^ rotr 22 x

def bigSigma1 (x : Nat) : Nat := rotr 6 x ^^^ rotr 11 x ^^^ rotr 25 x

def chFun (x y z : Nat) : Nat := (x &&& y) ^^^ ((x ^^^ 4294967295) &&& z)

def majFun (x y z : Nat) : Nat := (x &&& y) ^^^ (x &&& z) ^^^ (y &&& z)

/-- One message-schedule extension step; `rw` holds the schedule reversed. -/
def schedStep (rw : List Nat) : List Nat :=
  ((rw.getD 15 0 + smallSigma0 (rw.getD 14 0) + rw.getD 6 0
      + smallSigma1 (rw.getD 1 0)) % w32) :: rw

def extendSched : Nat → List Nat → List Nat
  | 0, rw => rw
  | n + 1, rw => extendSched n (schedStep rw)

/-- The 64-entry message schedule from a 16-word block. -/
def schedule (block : List Nat) : List Nat :=
  (extendSched 48 block.reverse).reverse

/-- The eight working variables of the compression function. -/
structure Hash8 where
  a : Nat
  b : Nat
  c : Nat
  d : Nat
  e : Nat
  f : Nat
  g : Nat
  h : Nat

/-- The initial hash value, decimal. -/
def initH : Hash8 :=
  ⟨1779033703, 3144134277, 1013904242, 2773480762,
   1359893119, 2600822924, 528734635, 1541459225⟩

/-- One SHA-256 round; `kw` is the round constant plus schedule word. -/
def roundStep (st : Hash8) (kw : Nat) : Hash8 :=
  let t1 := (st.h + bigSigma1 st.e + chFun st.e st.f st.g + kw) % w32
  let t2 := (bigSigma0 st.a + majFun st.a st.b st.c) % w32
  ⟨(t1 + t2) % w32, st.a, st.b, st.c, (st.d + t1) % w32, st.e, st.f, st.g⟩

/-- Compress one 64-byte block into the running hash state. -/
def compress (st : Hash8) (block : List Nat) : Hash8 :=
  let w := schedule (wordsOf block)
  let kw := (K256.zip w).map fun p => (p.1 + p.2) % w32
  let r := kw.foldl roundStep st
  ⟨(st.a + r.a) % w32, (st.b + r.b) % w32, (st.c + r.c) % w32, (st.d + r.d) % w32,
   (st.e + r.e) % w32, (st.f + r.f) % w32, (st.g + r.g) % w32, (st.h + r.h) % w32⟩

/-- SHA-256 digest (32 bytes) of a byte list. -/
def sha256Bytes (msg : List Nat) : List Nat :=
  let f := (chunks64 (padMsg msg)).foldl compress initH
  beBytes 4 f.a ++ beBytes 4 f.b ++ beBytes 4 f.c ++ beBytes 4 f.d ++
  beBytes 4 f.e ++ beBytes 4 f.f ++ beBytes 4 f.g ++ beBytes 4 f.h

/-! ## HMAC-SHA256 (RFC 2104) and hex digests -/

def hmacSha256 (key msg : List Nat) : List Nat :=
  let k1 := if 64 < key.length then sha256Bytes key else key
  let k2 := k1 ++ List.replicate (64 - k1.length) 0
  sha256Bytes ((k2.map fun b => b ^^^ 0x5c) ++
    sha256Bytes ((k2.map fun b => b ^^^ 0x36) ++ msg))

/-- Lower-case hex digit. -/
def hexChar (n : Nat) : Char := if n < 10 then Char.ofNat (48 + n) else Char.ofNat (87 + n)

def byteHex (b : Nat) : List Char := [hexChar (b / 16), hexChar (b % 16)]

/-- Lower-case hex string of a byte list (Python `hexdigest()`). -/
def hexStr (bs : List Nat) : String := ⟨bs.flatMap byteHex⟩

/-- UTF-8 encoding of a code point (Python `str.encode()`). -/
def utf8Bytes (n : Nat) : List Nat :=
  if n < 0x80 then [n]
  else if n < 0x800 then [0xc0 + n / 64, 0x80 + n % 64]
  else if n < 0x10000 then [0xe0 + n / 4096, 0x80 + n / 64 % 64, 0x80 + n % 64]
  else [0xf0 + n / 262144, 0x80 + n / 4096 % 64, 0x80 + n / 64 % 64, 0x80 + n % 64]

/-- The bytes of a string under UTF-8. -/
def strBytes (s : String) : List Nat := s.data.flatMap fun c => utf8Bytes c.toNat

/-- Python `hmac.new(key.encode(), data.encode(), hashlib.sha256).hexdigest()`. -/
def hmacHex (key data : String) : String := hexStr (hmacSha256 (strBytes key) (strBytes data))

/-! ## Session tokens (`create_session_token`, `verify_session_token`)

`SESSION_SECRET = secrets.token_hex(32)` and the nonce
`secrets.token_hex(16)` are external randomness; they are passed as
parameters `secret` and `nonce`. -/

/-- Python slicing `s[:16]`. -/
def take16 (s : String) : String := ⟨s.data.take 16⟩

/-- Function `create_session_token`: nonce, dot, truncated HMAC hex signature. -/
def create_session_token (secret nonce : String) : String :=
  let sig := take16 (hmacHex secret nonce)
  nonce ++ "." ++ sig

/-- Python `t.rsplit(".", 1)` when `t` contains a dot: split at the last
dot (everything before it, everything after it). -/
def splitLastDot : List Char → List Char × List Char
  | [] => ([], [])
  | c :: rest =>
    if rest.contains '.' then
      ((c :: (splitLastDot rest).1), (splitLastDot rest).2)
    else if c = '.' then ([], rest)
    else (c :: rest, [])

def rsplitDot (t : String) : String × String :=
  let p := splitLastDot t.data
  (⟨p.1⟩, ⟨p.2⟩)

/-- Function `verify_session_token`; a missing cookie is `none`. -/
def verify_session_token (secret : String) (token : Option String) : Bool :=
  match token with
  | none => false
  | some t =>
    if t = "" || !t.data.contains '.' then false
    else
      let ds := rsplitDot t
      let expected := take16 (hmacHex secret ds.1)
      ds.2 == expected

/-! ## Path handling (`os.path` on POSIX) -/

/-- Python `path.lstrip("/")`. -/
def lstripSlash (s : String) : String := ⟨s.data.dropWhile fun c => c = '/'⟩

/-- Python `path.rstrip("/")`. -/
def rstripSlash (s : String) : String := ⟨(s.data.reverse.dropWhile fun c => c = '/').reverse⟩

/-- Whether `pat` begins `l`. -/
def leadsWith : List Char → List Char → Bool
  | [], _ => true
  | _ :: _, [] => false
  | p :: ps, c :: cs => p == c && leadsWith ps cs

/-- Python `s.startswith(pre)`. -/
def startsWithStr (s pre : String) : Bool := leadsWith pre.data s.data

/-- Python `s.endswith(suf)`. -/
def endsWithStr (s suf : String) : Bool := leadsWith suf.data.reverse s.data.reverse

/-- Python `sep.join(parts)` at the character-list level. -/
def joinSep (sep : Char) : List (List Char) → List Char
  | [] => []
  | [x] => x
  | x :: y :: rest => x ++ sep :: joinSep sep (y :: rest)

/-- Python `"/".join(parts)`. -/
def joinSlash (parts : List String) : String := ⟨joinSep '/' (parts.map (·.data))⟩

/-- Python `str.split(sep)` for a single-character separator: keeps empty
parts, `""` splits to `[""]`. -/
def splitSep (sep : Char) : List Char → List (List Char)
  | [] => [[]]
  | c :: rest =>
    let r := splitSep sep rest
    if c = sep then [] :: r
    else
      match r with
      | [] => [[c]]
      | h :: t => (c :: h) :: t

/-- The component fold of `posixpath.normpath`. -/
def normComps (initialSlashes : Nat) (comps : List String) : List String :=
  comps.foldl
    (fun acc comp =>
      if comp = "" ∨ comp = "." then acc
      else if comp ≠ ".." ∨ (initialSlashes = 0 ∧ acc = []) ∨ acc.getLast? = some ".." then
        acc ++ [comp]
      else if acc ≠ [] then acc.dropLast
      else acc)
    []

/-- Python `os.path.normpath` (POSIX). -/
def normpath (p : String) : String :=
  if p = "" then "."
  else
    let initialSlashes : Nat :=
      if startsWithStr p "/" then
        if startsWithStr p "//" ∧ ¬ startsWithStr p "///" then 2 else 1
      else 0
    let comps := (splitSep '/' p.data).map fun l => (⟨l⟩ : String)
    let joined := joinSlash (normComps initialSlashes comps)
    let r := (⟨List.replicate initialSlashes '/'⟩ : String) ++ joined
    if r = "" then "." else r

/-- Whether `pat` occurs as a contiguous sublist of `l` (Python `pat in s`). -/
def hasSub (pat : List Char) : List Char → Bool
  | [] => leadsWith pat []
  | c :: rest => leadsWith pat (c :: rest) || hasSub pat rest

/-- Python substring containment `pat in s`. -/
def containsSubstring (pat s : String) : Bool := hasSub pat.data s.data

/-- Python `os.path.join` (POSIX, two arguments). -/
def joinPath (a b : String) : String :=
  if startsWithStr b "/" then b
  else if a = "" ∨ endsWithStr a "/" then a ++ b
  else a ++ "/" ++ b

/-! ## Sorting directory entries

Python compares strings lexicographically by code point; `sorted` returns
the (for distinct directory names, unique) sorted permutation. -/

/-- Lexicographic comparison of character lists by code point. -/
def lexLe : List Char → List Char → Bool
  | [], _ => true
  | _ :: _, [] => false
  | a :: as, b :: bs =>
    if a.toNat < b.toNat then true
    else if b.toNat < a.toNat then false
    else lexLe as bs

/-- Python string `<=`: lexicographic by code point. -/
def strLe (a b : String) : Bool := lexLe a.data b.data

/-- The order `sorted` sorts by, as a relation. -/
abbrev StrLeR (a b : String) : Prop := strLe a b = true

/-- Python `sorted` on strings. -/
def sortedPy (l : List String) : List String := List.insertionSort StrLeR l

/-! ## File resolution (`serve_files` after the auth gate) -/

/-- The filesystem, an external collaborator
(`os.path.isdir`, `os.path.isfile`, `os.listdir`). -/
structure FS where
  isDir : String → Bool
  isFile : String → Bool
  listdir : String → List String

/-- Outcome of resolving a request path inside the sandbox root. -/
inductive Outcome
  | forbidden
  | listing (dirs files : List String) (html : String)
  | file (path : String)
  | notFound
deriving DecidableEq

/-- The listing page built by `serve_files` for directory `path`. -/
def renderListing (path : String) (dirs files : List String) : String :=
  let base := "<html><body><h1>" ++ path ++ "</h1><ul>"
  let withDirs := dirs.foldl
    (fun h d => h ++ "<li><a href=\"" ++ rstripSlash path ++ "/" ++ d ++ "/\">" ++ d ++ "/</a></li>")
    base
  let withFiles := files.foldl
    (fun h f => h ++ "<li><a href=\"" ++ rstripSlash path ++ "/" ++ f ++ "\">" ++ f ++ "</a></li>")
    withDirs
  withFiles ++ "</ul></body></html>"

/-- Line 150: `safe_path = os.path.normpath(path.lstrip("/"))`. -/
def safePathOf (path : String) : String := normpath (lstripSlash path)

/-- Line 156: `full_path = os.path.join(data_dir, safe_path) if safe_path else data_dir`. -/
def fullPathOf (data_dir path : String) : String :=
  if safePathOf path ≠ "" then joinPath data_dir (safePathOf path) else data_dir

/-- The `dirs` list of the directory branch of `serve_files`: sorted
entries that are subdirectories and not hidden. -/
def listingDirs (fs : FS) (full_path : String) : List String :=
  (sortedPy (fs.listdir full_path)).filter fun e =>
    fs.isDir (joinPath full_path e) && !startsWithStr e "."

/-- The `files` list of the directory branch of `serve_files`: sorted
entries that are regular files and not hidden. -/
def listingFiles (fs : FS) (full_path : String) : List String :=
  (sortedPy (fs.listdir full_path)).filter fun e =>
    fs.isFile (joinPath full_path e) && !startsWithStr e "."

/-- Lines 149–177 of `serve_files`: traversal check, join onto the sandbox
root, then directory listing / file / not-found (the spec's `resolve()`). -/
def resolve (fs : FS) (data_dir : String) (path : String) : Outcome :=
  let safe_path := safePathOf path
  if containsSubstring ".." safe_path then .forbidden
  else
    let full_path := fullPathOf data_dir path
    if fs.isDir full_path then
      .listing (listingDirs fs full_path) (listingFiles fs full_path)
        (renderListing path (listingDirs fs full_path) (listingFiles fs full_path))
    else if fs.isFile full_path then .file full_path
    else .notFound

/-! ## Handlers and routing -/

/-- Results of the external subprocess collaborator during redeploy.
`fetch` runs with `check=True`, so a non-zero exit raises; any raise
(`CalledProcessError`, `TimeoutExpired`, `OSError`, …) is `.error` with the
exception text. -/
structure GitReset where
  returncode : Int
  stderr : String

structure DeployEnv where
  fetch : Except String Unit
  reset : Except String GitReset
  popen : Except String Unit

inductive WebhookOutcome
  | notConfigured                  -- 500 "Webhook not configured"
  | missingSignature               -- 401 "Missing signature"
  | invalidSignature               -- 401 "Invalid signature"
  | resetFailed (stderr : String)  -- 500 "Git reset failed: ..."
  | errorCaught (msg : String)     -- 500 "Error: ..."
  | okRestarting                   -- 200 "OK, restarting..."
deriving DecidableEq

/-- The `try` block of `webhook` after signature verification: fetch, reset,
then spawn the detached restart.  Returns the outcome and whether the
restart (`subprocess.Popen` of `start-cdn.sh`) was spawned. -/
def runDeploy (env : DeployEnv) : WebhookOutcome × Bool :=
  match env.fetch with
  | .error e => (.errorCaught e, false)
  | .ok _ =>
    match env.reset with
    | .error e => (.errorCaught e, false)
    | .ok r =>
      if r.returncode ≠ 0 then (.resetFailed r.stderr, false)
      else
        match env.popen with
        | .error e => (.errorCaught e, false)
        | .ok _ => (.okRestarting, true)

/-- Handler `webhook`: the outcome, and whether the detached restart was spawned. -/
def webhook (webhook_secret repo_dir : String) (env : DeployEnv)
    (body : List Nat) (sig_header : String) : WebhookOutcome × Bool :=
  if webhook_secret = "" ∨ repo_dir = "" then (.notConfigured, false)
  else if ¬ startsWithStr sig_header "sha256=" then (.missingSignature, false)
  else if sig_header ≠ "sha256=" ++ hexStr (hmacSha256 (strBytes webhook_secret) body) then
    (.invalidSignature, false)
  else runDeploy env

/-- The outcome of `await request.json()` followed by `data.get("hash", "")`
in `login`: `.failure` when either call raised (absent body, invalid JSON,
or non-object JSON), `.missing` when the JSON object has no "hash" field,
`.value s` for a string-valued "hash" field. -/
inductive HashField
  | failure
  | missing
  | value (s : String)
deriving DecidableEq

def received_hash : HashField → String
  | .failure => ""
  | .missing => ""
  | .value s => s

inductive LoginResult
  | ok (token : String)  -- 200 {"ok": true}, Set-Cookie session=token
  | unauthorized         -- 401 {"ok": false}, no cookie
deriving DecidableEq

/-- Handler `login`: constant-time comparison of the received hash against the
configured `password_hash`; the fresh nonce is a parameter. -/
def login (secret password_hash nonce : String) (body : HashField) : LoginResult :=
  if received_hash body == password_hash then .ok (create_session_token secret nonce)
  else .unauthorized

inductive Response
  | loginHtml                                    -- FileResponse(login.html)
  | unauthorized                                 -- 401 "Unauthorized"
  | resolved (o : Outcome)
  | loginResp (r : LoginResult)
  | webhookResp (w : WebhookOutcome) (spawned : Bool)
  | methodNotAllowed                             -- 405 from the router
deriving DecidableEq

/-- Handler `serve_files`: the auth gate, then resolution inside the sandbox. -/
def serve_files (secret : String) (fs : FS) (data_dir : String)
    (path : String) (cookie : Option String) : Response :=
  if ¬ verify_session_token secret cookie then
    if path = "/" then .loginHtml else .unauthorized
  else .resolved (resolve fs data_dir path)

/-- A request, as far as routing and the handlers consume it. -/
structure Req where
  method : String
  path : String
  cookie : Option String  -- request.cookies.get("session")
  loginBody : HashField
  rawBody : List Nat
  sigHeader : String      -- headers.get("X-Hub-Signature-256", "")

/-- Starlette route dispatch over the `routes` list: the first route whose
path and method both match handles the request; a path-only match leaves a
partial match, answered 405 (`Route` with GET also accepts HEAD; CORS
preflight handling is middleware, outside this model). -/
def dispatch (secret password_hash webhook_secret : String)
    (fs : FS) (data_dir repo_dir : String) (env : DeployEnv) (nonce : String)
    (req : Req) : Response :=
  if req.path = "/login.html" ∧ (req.method = "GET" ∨ req.method = "HEAD") then
    .loginHtml
  else if req.path = "/login" ∧ req.method = "POST" then
    .loginResp (login secret password_hash nonce req.loginBody)
  else if req.path = "/webhook" ∧ req.method = "POST" then
    let w := webhook webhook_secret repo_dir env req.rawBody req.sigHeader
    .webhookResp w.1 w.2
  else if req.method = "GET" ∨ req.method = "HEAD" then
    serve_files secret fs data_dir req.path req.cookie
  else .methodNotAllowed

/-! ## Generic facts about the hash encodings -/

theorem beBytes_length (n v : Nat) : (beBytes n v).length = n := by
  induction n generalizing v with
  | zero => rfl
  | succ m ih => simp [beBytes, ih]

theorem beBytes_lt (n v : Nat) : ∀ b ∈ beBytes n v, b < 256 := by
  induction n generalizing v with
  | zero => intro b hb; simp [beBytes] at hb
  | succ m ih =>
    intro b hb
    simp only [beBytes, List.mem_append, List.mem_singleton] at hb
    rcases hb with h | h
    · exact ih _ b h
    · subst h; exact Nat.mod_lt _ (by omega)

theorem sha256Bytes_length (msg : List Nat) : (sha256Bytes msg).length = 32 := by
  unfold sha256Bytes
  simp [beBytes_length]

theorem sha256Bytes_lt (msg : List Nat) : ∀ b ∈ sha256Bytes msg, b < 256 := by
  intro b hb
  unfold sha256Bytes at hb
  simp only [List.mem_append] at hb
  rcases hb with ((((((h | h) | h) | h) | h) | h) | h) | h <;> exact beBytes_lt _ _ b h

theorem hexChar_ne_dot : ∀ n, n < 16 → hexChar n ≠ '.' := by decide

theorem hexStr_no_dot {bs : List Nat} (h : ∀ b ∈ bs, b < 256) : '.' ∉ (hexStr bs).data := by
  intro hc
  simp only [hexStr, List.mem_flatMap] at hc
  obtain ⟨b, hb, hcb⟩ := hc
  have hblt := h b hb
  simp only [byteHex, List.mem_cons, List.mem_singleton, List.not_mem_nil, or_false] at hcb
  rcases hcb with h1 | h1
  · exact hexChar_ne_dot (b / 16) (by omega) h1.symm
  · exact hexChar_ne_dot (b % 16) (by omega) h1.symm

theorem hexStr_length (bs : List Nat) : (hexStr bs).data.length = 2 * bs.length := by
  induction bs with
  | nil => rfl
  | cons b t ih =>
    simp only [hexStr] at ih ⊢
    simp [List.flatMap_cons, byteHex] at ih ⊢
    omega

theorem take16_data (s : String) : (take16 s).data = s.data.take 16 := rfl

theorem hmacHex_length (key data : String) : (hmacHex key data).data.length = 64 := by
  unfold hmacHex hmacSha256
  rw [hexStr_length, sha256Bytes_length]

theorem hmacHex_lt (key data : String) : ∀ b ∈ hmacSha256 (strBytes key) (strBytes data), b < 256 := by
  unfold hmacSha256
  exact sha256Bytes_lt _

/-- The truncated signature contains no dot. -/
theorem sig_no_dot (secret nonce : String) : '.' ∉ (take16 (hmacHex secret nonce)).data := by
  intro hc
  rw [take16_data] at hc
  exact hexStr_no_dot (hmacHex_lt secret nonce) (List.take_subset _ _ hc)

/-- The truncated signature has exactly 16 characters. -/
theorem sig_length (secret nonce : String) : (take16 (hmacHex secret nonce)).data.length = 16 := by
  rw [take16_data, List.length_take, hmacHex_length]
  omega

/-! ## `rsplit` and `verify_session_token` characterization -/

theorem contains_of_mem {l : List Char} {c : Char} (h : c ∈ l) : l.contains c = true := by
  simp [List.contains, h]

theorem not_mem_of_contains_eq_false {l : List Char} {c : Char}
    (h : l.contains c = false) : c ∉ l := by
  intro hm
  rw [contains_of_mem hm] at h
  cases h

theorem contains_eq_false_of_not_mem {l : List Char} {c : Char} (h : c ∉ l) :
    l.contains c = false := by
  cases hc : l.contains c with
  | false => rfl
  | true => simp [List.contains] at hc; exact absurd hc h

/-- Splitting `d ++ '.' :: s` at the last dot recovers `(d, s)` when `s`
has no dot. -/
theorem splitLastDot_append (d s : List Char) (h : '.' ∉ s) :
    splitLastDot (d ++ '.' :: s) = (d, s) := by
  induction d with
  | nil => simp [splitLastDot, h]
  | cons x d' ih =>
    have hm : '.' ∈ d' ++ '.' :: s := by simp
    simp [splitLastDot, hm, ih]

/-- Any list containing a dot decomposes as `before ++ '.' :: after` with a
dot-free `after`, the parts being those of `splitLastDot`. -/
theorem splitLastDot_spec (l : List Char) (h : '.' ∈ l) :
    l = (splitLastDot l).1 ++ '.' :: (splitLastDot l).2 ∧
      '.' ∉ (splitLastDot l).2 := by
  induction l with
  | nil => simp at h
  | cons c rest ih =>
    by_cases hm : '.' ∈ rest
    · obtain ⟨h1, h2⟩ := ih hm
      constructor
      · conv_lhs => rw [h1]
        simp [splitLastDot, hm]
      · simp [splitLastDot, hm, h2]
    · have hc : c = '.' := by
        rcases List.mem_cons.mp h with h1 | h1
        · exact h1.symm
        · exact absurd h1 hm
      subst hc
      simp [splitLastDot, hm]

theorem mk_data_eq (s : String) : (⟨s.data⟩ : String) = s := rfl

theorem mk_ne_empty_of_ne_nil {l : List Char} (h : l ≠ []) : (⟨l⟩ : String) ≠ "" := by
  intro he
  exact h (congrArg String.data he)

/-- Verification of a token of the form `data ++ "." ++ sig` with
a dot-free `sig` compares `sig` against the recomputed truncated
signature of `data`. -/
theorem verify_eq_compare (secret : String) (d s : List Char)
    (hs : '.' ∉ s) :
    verify_session_token secret (some ⟨d ++ '.' :: s⟩) =
      ((⟨s⟩ : String) == take16 (hmacHex secret ⟨d⟩)) := by
  have hm : '.' ∈ d ++ '.' :: s := by simp
  have hne : (⟨d ++ '.' :: s⟩ : String) ≠ "" :=
    mk_ne_empty_of_ne_nil (by simp)
  unfold verify_session_token rsplitDot
  simp [hne, hm, splitLastDot_append d s hs]

/-! ## Facts about the directory-entry sort -/

theorem lexLe_total : ∀ as bs : List Char, lexLe as bs = true ∨ lexLe bs as = true := by
  intro as
  induction as with
  | nil => intro bs; left; rfl
  | cons a as ih =>
    intro bs
    cases bs with
    | nil => right; rfl
    | cons b bs' =>
      by_cases h1 : a.toNat < b.toNat
      · left; simp [lexLe, h1]
      · by_cases h2 : b.toNat < a.toNat
        · right; simp [lexLe, h2]
        · rcases ih bs' with h | h
          · left; simp [lexLe, h1, h2, h]
          · right; simp [lexLe, h1, h2, h]

theorem lexLe_trans : ∀ as bs cs : List Char,
    lexLe as bs = true → lexLe bs cs = true → lexLe as cs = true := by
  intro as
  induction as with
  | nil => intro bs cs _ _; rfl
  | cons a as ih =>
    intro bs cs hab hbc
    cases bs with
    | nil => exact absurd hab (by simp [lexLe])
    | cons b bs' =>
      cases cs with
      | nil => exact absurd hbc (by simp [lexLe])
      | cons c cs' =>
        simp only [lexLe] at hab hbc ⊢
        by_cases h1 : a.toNat < b.toNat
        · by_cases h2 : b.toNat < c.toNat
          · simp [Nat.lt_trans h1 h2]
          · by_cases h3 : c.toNat < b.toNat
            · rw [if_neg h2, if_pos h3] at hbc; cases hbc
            · have hac : a.toNat < c.toNat := by omega
              simp [hac]
        · by_cases h1' : b.toNat < a.toNat
          · rw [if_neg h1, if_pos h1'] at hab; cases hab
          · rw [if_neg h1, if_neg h1'] at hab
            by_cases h2 : b.toNat < c.toNat
            · have hac : a.toNat < c.toNat := by omega
              simp [hac]
            · by_cases h3 : c.toNat < b.toNat
              · rw [if_neg h2, if_pos h3] at hbc; cases hbc
              · rw [if_neg h2, if_neg h3] at hbc
                have g1 : ¬ a.toNat < c.toNat := by omega
                have g2 : ¬ c.toNat < a.toNat := by omega
                rw [if_neg g1, if_neg g2]
                exact ih bs' cs' hab hbc

instance : IsTotal String StrLeR := ⟨fun a b => lexLe_total a.data b.data⟩

instance : IsTrans String StrLeR := ⟨fun a b c hab hbc => lexLe_trans a.data b.data c.data hab hbc⟩

theorem sortedPy_sorted (l : List String) : (sortedPy l).Sorted StrLeR :=
  List.sorted_insertionSort StrLeR l

theorem mem_sortedPy {l : List String} {x : String} : x ∈ sortedPy l ↔ x ∈ l :=
  List.mem_insertionSort StrLeR

theorem listingDirs_sorted (fs : FS) (full_path : String) :
    (listingDirs fs full_path).Sorted StrLeR :=
  (sortedPy_sorted _).filter _

theorem listingFiles_sorted (fs : FS) (full_path : String) :
    (listingFiles fs full_path).Sorted StrLeR :=
  (sortedPy_sorted _).filter _

theorem mem_listingDirs (fs : FS) (full_path : String) (e : String) :
    e ∈ listingDirs fs full_path ↔
      e ∈ fs.listdir full_path ∧ fs.isDir (joinPath full_path e) = true ∧
        startsWithStr e "." = false := by
  simp [listingDirs, List.mem_filter, mem_sortedPy, and_assoc]

theorem mem_listingFiles (fs : FS) (full_path : String) (e : String) :
    e ∈ listingFiles fs full_path ↔
      e ∈ fs.listdir full_path ∧ fs.isFile (joinPath full_path e) = true ∧
        startsWithStr e "." = false := by
  simp [listingFiles, List.mem_filter, mem_sortedPy, and_assoc]

/-! ## Handler-level helper lemmas -/

theorem leadsWith_append (p l : List Char) : leadsWith p (p ++ l) = true := by
  induction p with
  | nil => rfl
  | cons c p ih => simp [leadsWith, ih]

/-- A string starts with its own prefix. -/
theorem startsWithStr_append (pre rest : String) :
    startsWithStr (pre ++ rest) pre = true := by
  unfold startsWithStr
  rw [String.data_append]
  exact leadsWith_append pre.data rest.data

/-! ## Concrete fixtures for witnesses and counterexamples -/

/-- A small concrete filesystem rooted at `"data"`. -/
def testFS : FS where
  isDir p := p = "data/." ∨ p = "data/./sub" ∨ p = "data" ∨ p = "data/sub"
  isFile p := p = "data/b" ∨ p = "data/./z.txt" ∨ p = "data/./a.txt" ∨ p = "data/./.hidden"
  listdir p := if p = "data/." then ["z.txt", "sub", ".hidden", "a.txt"] else []

/-- A deploy environment in which every external call succeeds. -/
def env0 : DeployEnv where
  fetch := .ok ()
  reset := .ok ⟨0, ""⟩
  popen := .ok ()

end Serve

/-! ## Validation of the hash embedding against published test vectors -/

example : Serve.hexStr (Serve.sha256Bytes (Serve.strBytes "abc")) =
    "ba7816bf8f01cfea414140de5dae2223b00361a396177a9cb410ff61f20015ad" := by decide

example : Serve.hmacHex "s3cr3t" "payload" =
    "9747a46cf3eeff4c181f0e08bc0388aaf2e49e139bad03dd7fefec920b08b082" := by decide

/-! ## The claims -/

open Serve

/-- C1 (amended): `resolve` returns "forbidden" exactly for the request
paths whose normalized form still contains `..`; a path containing `../`
that normalizes to a clean relative path is resolved normally.  (The claim
as stated — every path containing `../` is forbidden — is refuted by
`C1_counterexample`.) -/
theorem C1_forbidden_iff_normalized (fs : FS) (root path : String) :
    (containsSubstring ".." (safePathOf path) = true → resolve fs root path = .forbidden) ∧
    (containsSubstring ".." (safePathOf path) = false → resolve fs root path ≠ .forbidden) := by
  constructor
  · intro h
    unfold resolve
    simp [h]
  · intro h
    unfold resolve
    simp only [h]
    split_ifs <;> simp_all

/-- C1 counterexample: the request path "/a/../b" contains "../", yet
`resolve` serves the file `data/b` (normalization collapses `a/../b` to
`b` before the `..` check). -/
theorem C1_counterexample :
    containsSubstring "../" "/a/../b" = true ∧
      resolve testFS "data" "/a/../b" = .file "data/b" :=
  ⟨by decide, by decide⟩

/-- C1 witness: a path that still contains `..` after normalization is
forbidden. -/
theorem C1_witness :
    containsSubstring ".." (safePathOf "/a/../../etc/passwd") = true ∧
      resolve testFS "data" "/a/../../etc/passwd" = .forbidden :=
  ⟨by decide, (C1_forbidden_iff_normalized testFS "data" "/a/../../etc/passwd").1 (by decide)⟩

/-- C2: every token produced by `create_session_token` is accepted by
`verify_session_token` under the same process secret. -/
theorem C2_token_round_trip (secret nonce : String) :
    verify_session_token secret (some (create_session_token secret nonce)) = true := by
  have hdata : create_session_token secret nonce =
      (⟨nonce.data ++ '.' :: (take16 (hmacHex secret nonce)).data⟩ : String) := by
    apply String.ext
    simp [create_session_token]
  rw [hdata, verify_eq_compare secret _ _ (sig_no_dot secret nonce), mk_data_eq, mk_data_eq]
  exact beq_self_eq_true _

/-- C3 (amended): a token is valid iff it decomposes as
`data ++ "." ++ sig` where `sig` is dot-free (i.e. the split is at the
last dot; `data` itself may contain dots) and `sig` equals the recomputed
truncated signature of `data`.  (The claim's "exactly two `.`-delimited
parts" reading — more than one dot is invalid — is refuted by
`C3_counterexample`.) -/
theorem C3_valid_iff_last_split_matches (secret t : String) :
    verify_session_token secret (some t) = true ↔
      ∃ d s : String, t = d ++ "." ++ s ∧ '.' ∉ s.data ∧
        s = take16 (hmacHex secret d) := by
  constructor
  · intro hv
    by_cases hdot : '.' ∈ t.data
    · obtain ⟨h1, h2⟩ := splitLastDot_spec t.data hdot
      have ht : t = (⟨(splitLastDot t.data).1 ++ '.' :: (splitLastDot t.data).2⟩ : String) :=
        String.ext h1
      rw [ht, verify_eq_compare secret _ _ h2] at hv
      refine ⟨⟨(splitLastDot t.data).1⟩, ⟨(splitLastDot t.data).2⟩, ?_, h2, eq_of_beq hv⟩
      apply String.ext
      conv_lhs => rw [h1]
      simp
    · exfalso
      have hf : verify_session_token secret (some t) = false := by
        unfold verify_session_token
        simp [hdot]
      rw [hf] at hv
      cases hv
  · rintro ⟨d, s, rfl, hs, rfl⟩
    have hdata : d ++ "." ++ take16 (hmacHex secret d) =
        (⟨d.data ++ '.' :: (take16 (hmacHex secret d)).data⟩ : String) := by
      apply String.ext
      simp
    rw [hdata, verify_eq_compare secret _ _ hs, mk_data_eq, mk_data_eq]
    exact beq_self_eq_true _

/-- C3 counterexample: a token containing two dots that verifies: `rsplit`
splits at the last dot, so the nonce part may itself contain dots. -/
theorem C3_counterexample :
    1 < ("x.y.79d37ae574bda516" : String).data.count '.' ∧
      verify_session_token "s" (some "x.y.79d37ae574bda516") = true :=
  ⟨by decide, by decide⟩

/-- C4: `verify_session_token` fails closed: on an absent token, the empty
token, any token without a dot, any token of the shape
`nonce ++ "." ++ sig'` whose 16-character signature part differs from the
recomputed signature (in particular any one-character alteration), and any
token issued under a different secret whose recomputed signature differs. -/
theorem C4_fails_closed (secret : String) :
    verify_session_token secret none = false ∧
    verify_session_token secret (some "") = false ∧
    (∀ t : String, '.' ∉ t.data → verify_session_token secret (some t) = false) ∧
    (∀ nonce sig' : String, sig'.data.length = 16 →
      sig' ≠ take16 (hmacHex secret nonce) →
      verify_session_token secret (some (nonce ++ "." ++ sig')) = false) ∧
    (∀ secret' nonce : String,
      take16 (hmacHex secret' nonce) ≠ take16 (hmacHex secret nonce) →
      verify_session_token secret' (some (create_session_token secret nonce)) = false) := by
  refine ⟨rfl, rfl, ?_, ?_, ?_⟩
  · intro t hdot
    unfold verify_session_token
    simp [hdot]
  · intro nonce sig' hlen hne
    by_cases hd : '.' ∈ sig'.data
    · obtain ⟨h1, h2⟩ := splitLastDot_spec sig'.data hd
      have ht : nonce ++ "." ++ sig' =
          (⟨(nonce.data ++ '.' :: (splitLastDot sig'.data).1) ++
              '.' :: (splitLastDot sig'.data).2⟩ : String) := by
        apply String.ext
        conv_lhs => rw [String.data_append, String.data_append]
        conv_lhs => rw [h1]
        simp
      rw [ht, verify_eq_compare secret _ _ h2]
      apply beq_eq_false_iff_ne.mpr
      intro he
      have hlv : (splitLastDot sig'.data).2.length = 16 := by
        have hd2 := congrArg (fun x : String => x.data.length) he
        simpa [sig_length] using hd2
      have hsplit : sig'.data.length =
          (splitLastDot sig'.data).1.length + 1 + (splitLastDot sig'.data).2.length := by
        conv_lhs => rw [h1]
        simp [List.length_append]
        omega
      omega
    · have ht : nonce ++ "." ++ sig' = (⟨nonce.data ++ '.' :: sig'.data⟩ : String) := by
        apply String.ext
        simp
      rw [ht, verify_eq_compare secret _ _ hd, mk_data_eq, mk_data_eq]
      exact beq_eq_false_iff_ne.mpr hne
  · intro secret' nonce hne
    have hdata : create_session_token secret nonce =
        (⟨nonce.data ++ '.' :: (take16 (hmacHex secret nonce)).data⟩ : String) := by
      apply String.ext
      simp [create_session_token]
    rw [hdata, verify_eq_compare secret' _ _ (sig_no_dot secret nonce), mk_data_eq, mk_data_eq]
    exact beq_eq_false_iff_ne.mpr (Ne.symm hne)

/-- C4 witness: concrete failures: a dot-free token, the issued token
"nonce0.6d51e764d18bfdb8" with the first signature character altered, and
verification of an issued token under a different secret. -/
theorem C4_witness :
    verify_session_token "sek" (some "abc") = false ∧
    verify_session_token "sek" (some ("nonce0" ++ "." ++ "7d51e764d18bfdb8")) = false ∧
    verify_session_token "s2" (some (create_session_token "sek" "nonce0")) = false :=
  ⟨(C4_fails_closed "sek").2.2.1 "abc" (by decide),
   (C4_fails_closed "sek").2.2.2.1 "nonce0" "7d51e764d18bfdb8" (by decide) (by decide),
   (C4_fails_closed "sek").2.2.2.2 "s2" "nonce0" (by decide)⟩

/-- C5 (amended): the webhook checks its failure modes in order, with the
"not configured" outcome covering an empty secret or an empty repo
directory (the code checks `not config.webhook_secret or not
config.repo_dir`); after that, a header not starting with "sha256=" fails
as missing, a header differing from the expected HMAC fails as invalid,
and an equal header delegates to the redeploy collaborator.  (The claim as
stated, which conditions only on the secret, is refuted by
`C5_counterexample`.) -/
theorem C5_webhook_check_order (ws rd : String) (env : DeployEnv)
    (body : List Nat) (hdr : String) :
    ((ws = "" ∨ rd = "") → webhook ws rd env body hdr = (.notConfigured, false)) ∧
    (ws ≠ "" → rd ≠ "" → startsWithStr hdr "sha256=" = false →
      webhook ws rd env body hdr = (.missingSignature, false)) ∧
    (ws ≠ "" → rd ≠ "" → startsWithStr hdr "sha256=" = true →
      hdr ≠ "sha256=" ++ hexStr (hmacSha256 (strBytes ws) body) →
      webhook ws rd env body hdr = (.invalidSignature, false)) ∧
    (ws ≠ "" → rd ≠ "" → hdr = "sha256=" ++ hexStr (hmacSha256 (strBytes ws) body) →
      webhook ws rd env body hdr = runDeploy env) := by
  refine ⟨?_, ?_, ?_, ?_⟩
  · intro h
    unfold webhook
    simp [h]
  · intro h1 h2 h3
    unfold webhook
    simp [h1, h2, h3]
  · intro h1 h2 h3 h4
    unfold webhook
    simp [h1, h2, h3, h4]
  · intro h1 h2 h3
    subst h3
    unfold webhook
    simp [h1, h2, startsWithStr_append]

/-- C5 counterexample: with a non-empty secret but an empty repo
directory, a request with no signature header is answered "not
configured" (500), not "missing signature" (401). -/
theorem C5_counterexample :
    ("s3cr3t" : String) ≠ "" ∧ startsWithStr "" "sha256=" = false ∧
      webhook "s3cr3t" "" env0 (strBytes "payload") "" = (.notConfigured, false) :=
  ⟨by decide, by decide, by decide⟩

/-- C5 witness: with secret "s3cr3t" and body "payload": a header without
the scheme prefix is missing, a wrong digest is invalid, and the correct
digest delegates to the redeploy step. -/
theorem C5_witness :
    webhook "s3cr3t" "/repo" env0 (strBytes "payload") "" = (.missingSignature, false) ∧
    webhook "s3cr3t" "/repo" env0 (strBytes "payload")
      "sha256=0000000000000000000000000000000000000000000000000000000000000000" =
      (.invalidSignature, false) ∧
    webhook "s3cr3t" "/repo" env0 (strBytes "payload")
      "sha256=9747a46cf3eeff4c181f0e08bc0388aaf2e49e139bad03dd7fefec920b08b082" =
      runDeploy env0 :=
  ⟨(C5_webhook_check_order "s3cr3t" "/repo" env0 (strBytes "payload") "").2.1
      (by decide) (by decide) (by decide),
   (C5_webhook_check_order "s3cr3t" "/repo" env0 (strBytes "payload")
        "sha256=0000000000000000000000000000000000000000000000000000000000000000").2.2.1
      (by decide) (by decide) (by decide) (by decide),
   (C5_webhook_check_order "s3cr3t" "/repo" env0 (strBytes "payload")
        "sha256=9747a46cf3eeff4c181f0e08bc0388aaf2e49e139bad03dd7fefec920b08b082").2.2.2
      (by decide) (by decide) (by decide)⟩

/-- C6 (amended): every GET (or HEAD) request to a path other than the
login page, login submit and webhook endpoints that does not carry a
verifiable session cookie is answered 401, except the site root, which
receives the login page; and no request of any method is ever answered
with resolved sandbox content (a file or a listing) unless its cookie
verifies.  (The claim over every request is refuted by
`C6_counterexample`: a POST to a non-endpoint path is answered 405 by the
router, not 401.) -/
theorem C6_auth_gate (secret ph ws : String) (fs : FS) (dd rd : String)
    (env : DeployEnv) (nonce : String) :
    (∀ req : Req, (req.method = "GET" ∨ req.method = "HEAD") →
      req.path ≠ "/login.html" → req.path ≠ "/login" → req.path ≠ "/webhook" →
      verify_session_token secret req.cookie = false →
      dispatch secret ph ws fs dd rd env nonce req =
        (if req.path = "/" then .loginHtml else .unauthorized)) ∧
    (∀ (req : Req) (o : Outcome),
      dispatch secret ph ws fs dd rd env nonce req = .resolved o →
      verify_session_token secret req.cookie = true) := by
  constructor
  · rintro req hm hp1 hp2 hp3 hv
    unfold dispatch serve_files
    simp [hp1, hp2, hp3, hm, hv]
  · intro req o hd
    by_cases hv : verify_session_token secret req.cookie = true
    · exact hv
    · exfalso
      unfold dispatch serve_files at hd
      split_ifs at hd <;> simp_all

/-- C6 counterexample: a POST to "/x" (not an endpoint path) with no
cookie is answered 405 by the router, not 401. -/
theorem C6_counterexample :
    ("/x" : String) ≠ "/login.html" ∧ ("/x" : String) ≠ "/login" ∧
    ("/x" : String) ≠ "/webhook" ∧
    dispatch "sek" "ph" "ws" testFS "data" "/repo" env0 "n0"
      ⟨"POST", "/x", none, .failure, [], ""⟩ = .methodNotAllowed ∧
    Response.methodNotAllowed ≠ .unauthorized :=
  ⟨by decide, by decide, by decide, by decide, by decide⟩

/-- C6 witness: a cookie-less GET of "/files" is 401, a cookie-less GET of
the root gets the login page, and a GET that is answered with sandbox
content carried a verifiable cookie. -/
theorem C6_witness :
    dispatch "sek" "ph" "ws" testFS "data" "/repo" env0 "n0"
      ⟨"GET", "/files", none, .failure, [], ""⟩ = .unauthorized ∧
    dispatch "sek" "ph" "ws" testFS "data" "/repo" env0 "n0"
      ⟨"GET", "/", none, .failure, [], ""⟩ = .loginHtml ∧
    verify_session_token "sek"
      (some ("58132416e8c6bcd8a6e10de8d82b0f75" ++ "." ++
        take16 (hmacHex "sek" "58132416e8c6bcd8a6e10de8d82b0f75"))) = true :=
  ⟨((C6_auth_gate "sek" "ph" "ws" testFS "data" "/repo" env0 "n0").1
      ⟨"GET", "/files", none, .failure, [], ""⟩ (Or.inl rfl)
      (by decide) (by decide) (by decide) (by decide)).trans (if_neg (by decide)),
   ((C6_auth_gate "sek" "ph" "ws" testFS "data" "/repo" env0 "n0").1
      ⟨"GET", "/", none, .failure, [], ""⟩ (Or.inl rfl)
      (by decide) (by decide) (by decide) (by decide)).trans (if_pos rfl),
   (C6_auth_gate "sek" "ph" "ws" testFS "data" "/repo" env0 "n0").2
      ⟨"GET", "/b",
        some ("58132416e8c6bcd8a6e10de8d82b0f75" ++ "." ++
          take16 (hmacHex "sek" "58132416e8c6bcd8a6e10de8d82b0f75")),
        .failure, [], ""⟩
      (.file "data/b") (by decide)⟩

/-- C7: for every directory resolved inside the sandbox root the produced
listing shows exactly the non-hidden immediate children, subdirectories
before regular files, each group sorted lexicographically by code
point. -/
theorem C7_listing_shape (fs : FS) (root path : String)
    (hsafe : containsSubstring ".." (safePathOf path) = false)
    (hdir : fs.isDir (fullPathOf root path) = true) :
    resolve fs root path =
      .listing (listingDirs fs (fullPathOf root path))
        (listingFiles fs (fullPathOf root path))
        (renderListing path (listingDirs fs (fullPathOf root path))
          (listingFiles fs (fullPathOf root path))) ∧
    (listingDirs fs (fullPathOf root path)).Sorted StrLeR ∧
    (listingFiles fs (fullPathOf root path)).Sorted StrLeR ∧
    (∀ e, e ∈ listingDirs fs (fullPathOf root path) ↔
      e ∈ fs.listdir (fullPathOf root path) ∧
        fs.isDir (joinPath (fullPathOf root path) e) = true ∧
        startsWithStr e "." = false) ∧
    (∀ e, e ∈ listingFiles fs (fullPathOf root path) ↔
      e ∈ fs.listdir (fullPathOf root path) ∧
        fs.isFile (joinPath (fullPathOf root path) e) = true ∧
        startsWithStr e "." = false) :=
  ⟨by unfold resolve; simp [hsafe, hdir],
   listingDirs_sorted fs _, listingFiles_sorted fs _,
   mem_listingDirs fs _, mem_listingFiles fs _⟩

/-- C7 witness: resolving the empty path on the concrete fixture lists the
sandbox root: the subdirectory "sub" before the files "a.txt", "z.txt",
with ".hidden" excluded. -/
theorem C7_witness :
    resolve testFS "data" "" =
      .listing ["sub"] ["a.txt", "z.txt"]
        (renderListing "" ["sub"] ["a.txt", "z.txt"]) :=
  ((C7_listing_shape testFS "data" "" (by decide) (by decide)).1).trans (by decide)

/-- C9: when the login body is absent, invalid JSON, or lacks a "hash"
field, the handler compares the empty string against the configured hash:
it is rejected with 401 and no cookie unless the configured hash is itself
empty, in which case a session cookie is issued. -/
theorem C9_login_default_hash (secret ph nonce : String) (body : HashField)
    (h : body = .failure ∨ body = .missing) :
    login secret ph nonce body =
      (if ph = "" then .ok (create_session_token secret nonce) else .unauthorized) := by
  have hr : received_hash body = "" := by
    rcases h with h | h <;> subst h <;> rfl
  unfold login
  rw [hr]
  by_cases hp : ph = ""
  · subst hp
    simp
  · have hb : (("" : String) == ph) = false :=
      beq_eq_false_iff_ne.mpr fun he => hp he.symm
    simp [hb, hp]

/-- C9 witness: a parse failure against a non-empty configured hash is
rejected; a missing "hash" field against an empty configured hash is
accepted with a fresh session token. -/
theorem C9_witness :
    login "sek" "h1" "n" .failure = .unauthorized ∧
    login "sek" "" "n" .missing = .ok (create_session_token "sek" "n") :=
  ⟨(C9_login_default_hash "sek" "h1" "n" .failure (Or.inl rfl)).trans (if_neg (by decide)),
   (C9_login_default_hash "sek" "" "n" .missing (Or.inr rfl)).trans (if_pos rfl)⟩

/-- C10: the webhook spawns the detached restart only when signature
verification succeeded, the git fetch did not raise, the git reset exited
zero and the spawn itself did not raise; on every failure outcome the
restart is not spawned. -/
theorem C10_restart_only_on_success (ws rd : String) (env : DeployEnv)
    (body : List Nat) (hdr : String) :
    ((webhook ws rd env body hdr).1 ≠ .okRestarting →
      (webhook ws rd env body hdr).2 = false) ∧
    ((webhook ws rd env body hdr).2 = true →
      env.fetch = .ok () ∧ (∃ r, env.reset = .ok r ∧ r.returncode = 0) ∧
        env.popen = .ok () ∧ (webhook ws rd env body hdr).1 = .okRestarting) := by
  unfold webhook
  by_cases h1 : ws = "" ∨ rd = ""
  · rw [if_pos h1]
    exact ⟨fun _ => rfl, fun h => by cases h⟩
  · rw [if_neg h1]
    by_cases h2 : startsWithStr hdr "sha256=" = true
    · have h2n : ¬ ¬ startsWithStr hdr "sha256=" = true := fun hx => hx h2
      rw [if_neg h2n]
      by_cases h3 : hdr = "sha256=" ++ hexStr (hmacSha256 (strBytes ws) body)
      · have h3n : ¬ hdr ≠ "sha256=" ++ hexStr (hmacSha256 (strBytes ws) body) :=
          fun hx => hx h3
        rw [if_neg h3n]
        obtain ⟨f, r, p⟩ := env
        cases f with
        | error e => exact ⟨fun _ => rfl, fun h => by cases h⟩
        | ok u =>
          cases u
          cases r with
          | error e => exact ⟨fun _ => rfl, fun h => by cases h⟩
          | ok gr =>
            by_cases hrc : gr.returncode = 0
            · cases p with
              | error e =>
                refine ⟨fun _ => ?_, fun h => ?_⟩
                · simp [runDeploy, hrc]
                · exfalso
                  simp [runDeploy, hrc] at h
              | ok u2 =>
                cases u2
                constructor
                · intro hne
                  exfalso
                  exact hne (by simp [runDeploy, hrc])
                · intro _
                  exact ⟨rfl, ⟨gr, rfl, hrc⟩, rfl, by simp [runDeploy, hrc]⟩
            · refine ⟨fun _ => ?_, fun h => ?_⟩
              · simp [runDeploy, hrc]
              · exfalso
                simp [runDeploy, hrc] at h
      · rw [if_pos h3]
        exact ⟨fun _ => rfl, fun h => by cases h⟩
    · rw [if_pos h2]
      exact ⟨fun _ => rfl, fun h => by cases h⟩

/-- C10 witness: a missing-signature request does not spawn the restart; a
correctly signed request against an all-success environment spawns it with
both git commands succeeded. -/
theorem C10_witness :
    (webhook "s3cr3t" "/repo" env0 (strBytes "payload") "").2 = false ∧
    (env0.fetch = Except.ok () ∧ (∃ r, env0.reset = Except.ok r ∧ r.returncode = 0) ∧
      env0.popen = Except.ok () ∧
      (webhook "s3cr3t" "/repo" env0 (strBytes "payload")
        "sha256=9747a46cf3eeff4c181f0e08bc0388aaf2e49e139bad03dd7fefec920b08b082").1 =
        .okRestarting) :=
  ⟨(C10_restart_only_on_success "s3cr3t" "/repo" env0 (strBytes "payload") "").1
      (by decide),
   (C10_restart_only_on_success "s3cr3t" "/repo" env0 (strBytes "payload")
      "sha256=9747a46cf3eeff4c181f0e08bc0388aaf2e49e139bad03dd7fefec920b08b082").2
      (by decide)⟩
